import Mathlib

/-!
Shallow embedding of `src/jira_user_manager.py` (JIRA non-active user
management script) and proofs about its observable behaviour.

The script talks to a remote REST service over HTTP and to the local
file system.  Both are modelled as explicit parameters: the users-listing
endpoint as the list of responses it returns to the successive page
requests, the per-user delete endpoint as a function from the requested
`accountId` to the outcome of the call, and the file system as an
association of filenames to the JSON documents they hold (the Python
stdlib JSON codec, `json.dump` / `json.load`, is treated as a sound
round-tripping codec, so a file stores the document itself).  Console
prompts become string parameters, console prints are dropped except for
the numeric summary that `delete_users_from_file` reports.
-/

set_option autoImplicit false

/-- JSON values as exchanged with the REST API and stored in the local
file.  Numbers are modelled as integers; no field the script reads
carries a fractional value. -/
inductive Json where
  | null
  | bool (b : Bool)
  | str (s : String)
  | num (n : Int)
  | arr (elems : List Json)
  | obj (fields : List (String × Json))

/-- Python truthiness of a JSON value (what `not value` negates in the
source): `None`, `False`, `0`, `""`, `[]` and `{}` are falsy, everything
else is truthy. -/
def Json.truthy : Json → Bool
  | .null => false
  | .bool b => b
  | .str s => s != ""
  | .num n => n != 0
  | .arr elems => !elems.isEmpty
  | .obj fields => !fields.isEmpty

/-- Python equality of a JSON value against a string literal (the shape
`value != "former"` takes in the source): true iff the value is a string
with the same content; in Python a non-string never equals a string. -/
def Json.eqStr : Json → String → Bool
  | .str t, s => t == s
  | _, _ => false

/-- A Python dict with string keys, as produced by `response.json()`
for one user object: an association list looked up first-match. -/
abbrev JDict := List (String × Json)

/-- Lookup `d.get(key, dflt)` on a Python dict. -/
def dget (d : JDict) (key : String) (dflt : Json) : Json :=
  match d.find? (fun kv => kv.1 == key) with
  | some kv => kv.2
  | none => dflt

/-- Membership `key in d` on a Python dict: whether the key is present at all. -/
def hasKey (d : JDict) (key : String) : Bool :=
  (d.find? (fun kv => kv.1 == key)).isSome

/-- The constant `max_results` in `fetch_non_active_users` (line 83). -/
def maxResults : Nat := 50

/-- The inactive-user test of `fetch_non_active_users` (lines 107-110):
`not user.get("active", True) and user.get("accountType") != "former"`. -/
def isInactive (user : JDict) : Bool :=
  !(dget user "active" (Json.bool true)).truthy
    && !(dget user "accountType" Json.null).eqStr "former"

/-- The record appended for an inactive user (lines 113-119); Python
`dict.get(k)` with a single argument defaults to `None`. -/
def projectUser (user : JDict) : JDict :=
  [ ("accountId", dget user "accountId" Json.null),
    ("displayName", dget user "displayName" Json.null),
    ("emailAddress", dget user "emailAddress" Json.null),
    ("active", dget user "active" Json.null),
    ("accountType", dget user "accountType" Json.null) ]

/-- Outcome of one GET of the users-listing endpoint as observed by the
script: a response with an HTTP status and a decoded JSON body (a list
of user objects), or a transport error
(`requests.exceptions.RequestException`). -/
inductive PageResp where
  | ok (status : Nat) (users : List JDict)
  | netErr

/-- One run of the `while` loop of `fetch_non_active_users`
(lines 85-126), driven by the list of responses the endpoint returns to
the successive requests (the head answers the request at `startAt`, the
tail the later ones).  Returns the accumulated inactive users, the
`startAt` values of the requests actually issued (in order), and a flag:
if the supplied responses run out while the loop still wants to request
more, the flag is `true` (such a run is only observed up to that point).
A non-200 status breaks out of the loop before the body is parsed; an
empty body breaks before filtering; a transport error aborts the loop
from the surrounding `try`; after filtering a page the loop continues
only when the page held at least `max_results` records. -/
def fetchLoop : Nat → List PageResp → List JDict × List Nat × Bool
  | _, [] => ([], [], true)
  | startAt, resp :: rest =>
    match resp with
    | .netErr => ([], [startAt], false)
    | .ok status users =>
      if status ≠ 200 then ([], [startAt], false)
      else if users.isEmpty then ([], [startAt], false)
      else
        let page := (users.filter isInactive).map projectUser
        if users.length < maxResults then (page, [startAt], false)
        else
          let r := fetchLoop (startAt + maxResults) rest
          (page ++ r.1, startAt :: r.2.1, r.2.2)

/-- The function `fetch_non_active_users` (lines 75-132): the list it
returns.  On a non-200 response or a transport error the loop stops and
whatever was accumulated so far is returned; no failure is signalled. -/
def fetch_non_active_users (resps : List PageResp) : List JDict :=
  (fetchLoop 0 resps).1

/-- The `startAt` parameters of the page requests issued during the run
of `fetch_non_active_users` (the loop starts at 0 and does
`start_at += max_results` after each page, line 121). -/
def fetchRequests (resps : List PageResp) : List Nat :=
  (fetchLoop 0 resps).2.1

/-- Whether the loop was still about to issue a further request when the
supplied responses ran out (`false` means the run terminated within the
supplied responses). -/
def fetchWantsMore (resps : List PageResp) : Bool :=
  (fetchLoop 0 resps).2.2

/-- Outcome of the HTTP DELETE call in `delete_user` as observed by the
script: a response with a status, or a transport error. -/
inductive DelResp where
  | resp (status : Nat)
  | netErr

/-- The function `delete_user` (lines 155-172): returns `True` exactly on status 204;
any other status returns `False`, and a
`requests.exceptions.RequestException` is caught inside the function and
returns `False` (modelled by totality: no exceptional result exists). -/
def delete_user (r : DelResp) : Bool :=
  match r with
  | .resp status => status == 204
  | .netErr => false

/-- The local file system restricted to what the script touches: which
JSON documents exist under which filename.  `json.dump` / `json.load`
are modelled as storing and retrieving the document itself. -/
abbrev FileSys := List (String × Json)

/-- Reading a file: `none` is `FileNotFoundError`. -/
def readFile (fs : FileSys) (name : String) : Option Json :=
  (fs.find? (fun kv => kv.1 == name)).map (fun kv => kv.2)

/-- Writing: `open(name, "w")` followed by a dump of `doc`; mode `"w"` truncates,
so the file now holds exactly `doc` and the prior content is gone. -/
def writeFile (fs : FileSys) (name : String) (doc : Json) : FileSys :=
  (name, doc) :: fs.filter (fun kv => kv.1 != name)

/-- Removal `os.remove(name)` guarded by `os.path.exists` (lines 258-260). -/
def removeFile (fs : FileSys) (name : String) : FileSys :=
  fs.filter (fun kv => kv.1 != name)

/-- The fixed filename both `save_users_to_file` and
`delete_users_from_file` default to, and the one `main` passes. -/
def defaultFilename : String := "non_active_users.json"

/-- The function `save_users_to_file` (lines 134-138): `json.dump(users, f, indent=2)`
into `filename` opened with mode `"w"`. -/
def save_users_to_file (fs : FileSys) (users : List JDict) (filename : String) : FileSys :=
  writeFile fs filename (Json.arr (users.map Json.obj))

/-- The call `json.load` in `delete_users_from_file` (lines 176-181), decoding
the stored document back into the list of user objects the deletion
loop iterates (the script only ever reads files it wrote itself, which
are arrays of objects). -/
def loadUsers (fs : FileSys) (name : String) : Option (List JDict) :=
  match readFile fs name with
  | some (Json.arr elems) =>
      some (elems.map (fun e => match e with | Json.obj d => d | _ => []))
  | _ => none

/-- Python `str.strip()` with no argument: remove whitespace from both
ends (spelled out over the character list so that it evaluates). -/
def pyStrip (s : String) : String :=
  ⟨((s.data.dropWhile Char.isWhitespace).reverse.dropWhile
      Char.isWhitespace).reverse⟩

/-- Python `str.lower()` on the ASCII inputs the prompts compare
against. -/
def pyLower (s : String) : String :=
  ⟨s.data.map Char.toLower⟩

/-- The deletion loop of `delete_users_from_file` (lines 213-225).
`srv` is the behaviour of `DELETE /rest/api/3/user` for each requested
`accountId` value.  Returns `(successful_deletions, failed_deletions,
accountIds of the delete calls issued, in order)`.  A record whose
`accountId` is falsy (`if not account_id`) is skipped with no call and
counted as a failure; otherwise one call is issued and the outcome of
`delete_user` decides the counter. -/
def deletionLoop (srv : Json → DelResp) : List JDict → Nat × Nat × List Json
  | [] => (0, 0, [])
  | user :: rest =>
    let accountId := dget user "accountId" Json.null
    if !accountId.truthy then
      let r := deletionLoop srv rest
      (r.1, r.2.1 + 1, r.2.2)
    else
      let ok := delete_user (srv accountId)
      let r := deletionLoop srv rest
      if ok then (r.1 + 1, r.2.1, accountId :: r.2.2)
      else (r.1, r.2.1 + 1, accountId :: r.2.2)

/-- Observable outcome of `delete_users_from_file`: the delete calls
issued (the `accountId` of each, in order) and the printed summary
`(successful_deletions, failed_deletions, total processed)` - `none`
when the file was missing or a confirmation gate aborted the batch, in
which case nothing was printed and no call was made. -/
structure DeleteRun where
  calls : List Json
  summary : Option (Nat × Nat × Nat)

/-- The function `delete_users_from_file` (lines 174-230): load the file (missing
file returns at once), then the two confirmation gates - the first
input is stripped and compared to the literal `DELETE` (line 196-200),
the second is stripped, lowercased and compared to the literal `y`
(lines 203-206) - and only then the deletion loop runs, after which the
summary with `len(users)` as total is printed. -/
def delete_users_from_file (fs : FileSys) (filename : String)
    (confirm1 confirm2 : String) (srv : Json → DelResp) : DeleteRun :=
  match loadUsers fs filename with
  | none => { calls := [], summary := none }
  | some users =>
    if pyStrip confirm1 ≠ "DELETE" then { calls := [], summary := none }
    else if pyLower (pyStrip confirm2) ≠ "y" then
      { calls := [], summary := none }
    else
      let r := deletionLoop srv users
      { calls := r.2.2, summary := some (r.1, r.2.1, users.length) }

/-- Menu option 1 of `main` (lines 255-277): remove any existing
`non_active_users.json`, run the fetch, and save the result only when
the fetched list is truthy, i.e. nonempty (`if non_active_users:`,
line 268); the optional review step does not change the file system. -/
def menuFetchOption (fs : FileSys) (resps : List PageResp) : FileSys :=
  let fs1 := removeFile fs defaultFilename
  let users := fetch_non_active_users resps
  if users.isEmpty then fs1
  else save_users_to_file fs1 users defaultFilename

/-! ### Behaviour of the fetch loop, page by page -/

/-- A transport error stops the loop at once: the failing request was
issued, nothing of this page is accumulated. -/
theorem fetchLoop_netErr (s : Nat) (rest : List PageResp) :
    fetchLoop s (PageResp.netErr :: rest) = ([], [s], false) := rfl

/-- A non-200 response stops the loop before the body is read. -/
theorem fetchLoop_badStatus (s status : Nat) (users : List JDict)
    (rest : List PageResp) (h : status ≠ 200) :
    fetchLoop s (PageResp.ok status users :: rest) = ([], [s], false) := by
  simp [fetchLoop, h]

/-- A page shorter than `max_results` (the empty page included) is the
last page processed: its inactive users are kept and the loop stops. -/
theorem fetchLoop_shortPage (s : Nat) (users : List JDict)
    (rest : List PageResp) (hlen : users.length < maxResults) :
    fetchLoop s (PageResp.ok 200 users :: rest)
      = ((users.filter isInactive).map projectUser, [s], false) := by
  cases users with
  | nil => simp [fetchLoop]
  | cons u us =>
    simp [fetchLoop, hlen]
    intro h
    exact absurd h (by simp only [List.length_cons] at hlen; omega)

/-- A page of at least `max_results` records is filtered and the loop
goes on with `startAt` advanced by `max_results`. -/
theorem fetchLoop_fullPage (s : Nat) (users : List JDict)
    (rest : List PageResp) (hlen : ¬ users.length < maxResults)
    (hne : users ≠ []) :
    fetchLoop s (PageResp.ok 200 users :: rest)
      = ((users.filter isInactive).map projectUser
           ++ (fetchLoop (s + maxResults) rest).1,
         s :: (fetchLoop (s + maxResults) rest).2.1,
         (fetchLoop (s + maxResults) rest).2.2) := by
  cases users with
  | nil => exact absurd rfl hne
  | cons u us =>
    simp [fetchLoop, hlen]
    intro h
    exact absurd h (by simp only [List.length_cons] at hlen; omega)

/-- Composition: a run of pages each holding exactly `max_results`
records is fully processed, with one request per page at the expected
`startAt` values, and processing continues into the remaining
responses. -/
theorem fetchLoop_fullPages (full : List (List JDict)) (s : Nat)
    (tail : List PageResp)
    (hfull : ∀ p ∈ full, p.length = maxResults) :
    fetchLoop s (full.map (PageResp.ok 200) ++ tail)
      = ((full.map (fun p => (p.filter isInactive).map projectUser)).flatten
           ++ (fetchLoop (s + maxResults * full.length) tail).1,
         (List.range full.length).map (fun i => s + maxResults * i)
           ++ (fetchLoop (s + maxResults * full.length) tail).2.1,
         (fetchLoop (s + maxResults * full.length) tail).2.2) := by
  induction full generalizing s with
  | nil => simp
  | cons p ps ih =>
    have hp : p.length = maxResults := hfull p (by simp)
    have hne : p ≠ [] := by
      intro h
      rw [h] at hp
      simp [maxResults] at hp
    have hlen : ¬ p.length < maxResults := by omega
    rw [List.map_cons, List.cons_append, fetchLoop_fullPage s p _ hlen hne,
      ih (s + maxResults) (fun q hq => hfull q (by simp [hq]))]
    have harith : s + maxResults + maxResults * ps.length
        = s + maxResults * (ps.length + 1) := by ring
    have hfun : ((fun i => s + maxResults * i) ∘ Nat.succ)
        = (fun i => s + maxResults + maxResults * i) := by
      funext i
      simp only [Function.comp_apply, Nat.succ_eq_add_one]
      ring
    rw [harith]
    simp only [List.map_cons, List.flatten_cons, List.length_cons,
      Prod.mk.injEq, List.append_assoc, List.range_succ_eq_map,
      List.map_map, List.cons_append, hfun, Nat.mul_zero, Nat.add_zero]

/-! ### Dictionary and predicate lemmas -/

/-- `dict.get` falls back to the default when the key is absent. -/
theorem dget_of_not_hasKey (d : JDict) (key : String) (dflt : Json)
    (h : hasKey d key = false) : dget d key dflt = dflt := by
  unfold hasKey at h
  unfold dget
  cases hfind : d.find? (fun kv => kv.1 == key) with
  | none => rfl
  | some kv =>
    rw [hfind] at h
    simp at h

/-- The test `Json.eqStr` decides propositional equality with a string value. -/
theorem Json.eqStr_iff (j : Json) (s : String) :
    j.eqStr s = true ↔ j = Json.str s := by
  cases j <;> simp [Json.eqStr]

/-- The negative form of `Json.eqStr_iff`. -/
theorem Json.eqStr_eq_false (j : Json) (s : String) :
    j.eqStr s = false ↔ j ≠ Json.str s := by
  rw [Bool.eq_false_iff]
  constructor
  · intro h he
    exact h ((Json.eqStr_iff j s).mpr he)
  · intro h he
    exact h ((Json.eqStr_iff j s).mp he)

/-- The filter of `fetch_non_active_users`, spelled out: kept iff the
`active` lookup (defaulting to true) is falsy and the `accountType`
lookup is not the string `former`. -/
theorem isInactive_iff (u : JDict) :
    isInactive u = true
      ↔ (dget u "active" (Json.bool true)).truthy = false
        ∧ dget u "accountType" Json.null ≠ Json.str "former" := by
  simp [isInactive, Json.eqStr_eq_false]

/-! ### Behaviour of the deletion loop -/

/-- A record whose `accountId` is falsy is skipped: no call, one more
failure, and the rest of the queue is unaffected. -/
theorem deletionLoop_skip (srv : Json → DelResp) (u : JDict)
    (rest : List JDict)
    (h : (dget u "accountId" Json.null).truthy = false) :
    deletionLoop srv (u :: rest)
      = ((deletionLoop srv rest).1, (deletionLoop srv rest).2.1 + 1,
         (deletionLoop srv rest).2.2) := by
  simp [deletionLoop, h]

/-- A record with a truthy `accountId` gets exactly one delete call,
whose outcome decides which counter moves. -/
theorem deletionLoop_call (srv : Json → DelResp) (u : JDict)
    (rest : List JDict)
    (h : (dget u "accountId" Json.null).truthy = true) :
    deletionLoop srv (u :: rest)
      = (if delete_user (srv (dget u "accountId" Json.null))
          then ((deletionLoop srv rest).1 + 1, (deletionLoop srv rest).2.1,
                dget u "accountId" Json.null :: (deletionLoop srv rest).2.2)
          else ((deletionLoop srv rest).1, (deletionLoop srv rest).2.1 + 1,
                dget u "accountId" Json.null :: (deletionLoop srv rest).2.2)) := by
  simp [deletionLoop, h]

/-- Every record moves exactly one of the two counters. -/
theorem deletionLoop_counts (srv : Json → DelResp) (users : List JDict) :
    (deletionLoop srv users).1 + (deletionLoop srv users).2.1
      = users.length := by
  induction users with
  | nil => rfl
  | cons u rest ih =>
    cases h : (dget u "accountId" Json.null).truthy with
    | false =>
      rw [deletionLoop_skip srv u rest h]
      simp only [List.length_cons]
      omega
    | true =>
      rw [deletionLoop_call srv u rest h]
      cases hd : delete_user (srv (dget u "accountId" Json.null)) with
      | true =>
        simp only [hd, if_true, List.length_cons]
        omega
      | false =>
        simp only [hd, Bool.false_eq_true, if_false, List.length_cons]
        omega

/-- The delete calls issued are exactly the truthy `accountId`s, in
order, whatever the outcomes of the earlier calls: no failure stops the
remaining records from being attempted. -/
theorem deletionLoop_calls (srv : Json → DelResp) (users : List JDict) :
    (deletionLoop srv users).2.2
      = (users.filter (fun u => (dget u "accountId" Json.null).truthy)).map
          (fun u => dget u "accountId" Json.null) := by
  induction users with
  | nil => rfl
  | cons u rest ih =>
    cases h : (dget u "accountId" Json.null).truthy with
    | false =>
      rw [deletionLoop_skip srv u rest h]
      simp [List.filter_cons, h, ih]
    | true =>
      rw [deletionLoop_call srv u rest h]
      cases hd : delete_user (srv (dget u "accountId" Json.null)) with
      | true => simp [List.filter_cons, h, ih, hd]
      | false => simp [List.filter_cons, h, ih, hd]

/-! ### File-system lemmas -/

/-- Reading back a file just written returns the written document,
whatever was stored before (mode `"w"` truncates). -/
theorem readFile_writeFile (fs : FileSys) (name : String) (doc : Json) :
    readFile (writeFile fs name doc) name = some doc := by
  simp [readFile, writeFile]

/-- A removed file no longer reads back. -/
theorem readFile_removeFile (fs : FileSys) (name : String) :
    readFile (removeFile fs name) name = none := by
  unfold readFile removeFile
  rw [List.find?_eq_none.mpr]
  · rfl
  · intro kv hkv
    have hmem := (List.mem_filter.mp hkv).2
    simp at hmem ⊢
    exact hmem

/-- Saving a list and loading it back from the same filename returns
the same list, whatever the prior state of the file system. -/
theorem loadUsers_save (fs : FileSys) (users : List JDict)
    (filename : String) :
    loadUsers (save_users_to_file fs users filename) filename
      = some users := by
  unfold loadUsers save_users_to_file
  rw [readFile_writeFile]
  show some _ = some users
  congr 1
  induction users with
  | nil => rfl
  | cons d rest ih => simpa using ih

/-! ### Concrete data used by witnesses and counterexamples -/

/-- An active atlassian account (the fetch must drop it). -/
def activeAtlassianUser : JDict :=
  [("accountId", Json.str "1"), ("displayName", Json.str "Active User"),
   ("emailAddress", Json.str "a@ex.com"), ("active", Json.bool true),
   ("accountType", Json.str "atlassian")]

/-- An inactive atlassian account (the fetch must keep it). -/
def inactiveAtlassianUser : JDict :=
  [("accountId", Json.str "2"), ("displayName", Json.str "Inactive User"),
   ("emailAddress", Json.str "i@ex.com"), ("active", Json.bool false),
   ("accountType", Json.str "atlassian")]

/-- A deleted account: inactive but with `accountType` `former` (the
fetch must drop it). -/
def formerUser : JDict :=
  [("accountId", Json.str "3"), ("displayName", Json.str "Former User"),
   ("emailAddress", Json.str "f@ex.com"), ("active", Json.bool false),
   ("accountType", Json.str "former")]

/-- A record with no `active` key at all. -/
def noActiveFieldUser : JDict :=
  [("accountId", Json.str "4"), ("accountType", Json.str "atlassian")]

/-! ### The claims -/

/-- C1: over a served page, `fetch_non_active_users` keeps a record iff
its `active` field is false (for a boolean field, falsy means exactly
`false`) and its `accountType` is not `former`; a `former` record is
excluded even when inactive; the kept records are projected with their
`accountId` preserved and appended in the order received. -/
theorem c1_filter_inactive (users : List JDict)
    (hlen : users.length < maxResults) :
    fetch_non_active_users [PageResp.ok 200 users]
        = (users.filter isInactive).map projectUser
      ∧ (∀ u b, dget u "active" (Json.bool true) = Json.bool b →
          (isInactive u = true
            ↔ b = false ∧ dget u "accountType" Json.null ≠ Json.str "former"))
      ∧ (∀ u, dget u "accountType" Json.null = Json.str "former" →
          isInactive u = false)
      ∧ (∀ u, dget (projectUser u) "accountId" Json.null
          = dget u "accountId" Json.null) := by
  refine ⟨?_, ?_, ?_, fun u => rfl⟩
  · show (fetchLoop 0 [PageResp.ok 200 users]).1 = _
    rw [fetchLoop_shortPage 0 users [] hlen]
  · intro u b hb
    rw [isInactive_iff, hb]
    simp [Json.truthy]
  · intro u hf
    unfold isInactive
    rw [hf]
    simp [Json.eqStr]

/-- C1 witness: the three-user page of the specification keeps exactly the
inactive atlassian record, `accountId` `2`. -/
theorem c1_witness :
    fetch_non_active_users
        [PageResp.ok 200 [activeAtlassianUser, inactiveAtlassianUser, formerUser]]
      = [projectUser inactiveAtlassianUser]
    ∧ dget (projectUser inactiveAtlassianUser) "accountId" Json.null
      = Json.str "2" := by
  have h := c1_filter_inactive
      [activeAtlassianUser, inactiveAtlassianUser, formerUser] (by decide)
  refine ⟨?_, rfl⟩
  rw [h.1]
  rfl

/-- C4: `delete_user` returns true iff the delete call answered with
status exactly 204; any other status and the transport-exception case
return false - the exception is caught inside `delete_user`, which the
embedding renders by the function being total on `DelResp`. -/
theorem c4_delete_user_status :
    (∀ status, delete_user (DelResp.resp status) = true ↔ status = 204)
    ∧ delete_user DelResp.netErr = false := by
  constructor
  · intro status
    simp [delete_user]
  · rfl

/-- C7: saving any list of user records and re-reading the same file
yields an equal list, whatever the file system held before - mode `"w"`
truncates, so the file holds exactly the newly dumped document. -/
theorem c7_save_then_load (fs : FileSys) (users : List JDict)
    (filename : String) :
    loadUsers (save_users_to_file fs users filename) filename = some users
    ∧ readFile (save_users_to_file fs users filename) filename
      = some (Json.arr (users.map Json.obj)) :=
  ⟨loadUsers_save fs users filename, readFile_writeFile fs filename _⟩

/-- C10: a record with no `active` key defaults to active
(`user.get("active", True)`) and is excluded from the fetch result,
whatever its `accountType`. -/
theorem c10_missing_active_excluded (u : JDict)
    (h : hasKey u "active" = false) :
    isInactive u = false
    ∧ fetch_non_active_users [PageResp.ok 200 [u]] = [] := by
  have hd : dget u "active" (Json.bool true) = Json.bool true :=
    dget_of_not_hasKey u "active" (Json.bool true) h
  have hin : isInactive u = false := by
    unfold isInactive
    rw [hd]
    simp [Json.truthy]
  refine ⟨hin, ?_⟩
  show (fetchLoop 0 [PageResp.ok 200 [u]]).1 = []
  rw [fetchLoop_shortPage 0 [u] [] (by simp [maxResults])]
  simp [List.filter_cons, hin]

/-- C10 witness: a concrete record lacking `active` is excluded. -/
theorem c10_witness :
    isInactive noActiveFieldUser = false
    ∧ fetch_non_active_users [PageResp.ok 200 [noActiveFieldUser]] = [] :=
  c10_missing_active_excluded noActiveFieldUser (by decide)

/-- A saved file with one deletable user record. -/
def oneUserFile : FileSys :=
  [("non_active_users.json", Json.arr
    [Json.obj [("accountId", Json.str "acc-1"),
               ("displayName", Json.str "User One")]])]

/-- A delete endpoint that answers 204 to every call. -/
def srvAll204 : Json → DelResp := fun _ => DelResp.resp 204

/-- C2 counterexample: answering `Y` - not the literal `y` - at the
second prompt still runs the batch and issues a delete call, because the
source lowercases the second input before comparing; so it is false that
every input other than the literal `y` aborts with zero delete calls. -/
theorem c2_counterexample :
    (delete_users_from_file oneUserFile "non_active_users.json"
        "DELETE" "Y" srvAll204).calls = [Json.str "acc-1"]
    ∧ ("Y" : String) ≠ "y" := by
  constructor
  · rfl
  · decide

/-- C2 (amended): delete calls are issued only when the first input,
stripped of surrounding whitespace, equals `DELETE` and the second,
stripped and lowercased, equals `y`; any other pair of inputs aborts
the whole batch with zero delete calls issued and no summary printed
(and the file system is never written by this function). -/
theorem c2_confirmation_gates (fs : FileSys)
    (filename confirm1 confirm2 : String) (srv : Json → DelResp)
    (h : ¬ (pyStrip confirm1 = "DELETE"
        ∧ pyLower (pyStrip confirm2) = "y")) :
    delete_users_from_file fs filename confirm1 confirm2 srv
      = { calls := [], summary := none } := by
  unfold delete_users_from_file
  cases hload : loadUsers fs filename with
  | none => rfl
  | some users =>
    by_cases h1 : pyStrip confirm1 = "DELETE"
    · have h2 : pyLower (pyStrip confirm2) ≠ "y" := fun h2 => h ⟨h1, h2⟩
      simp [h1, h2]
    · simp [h1]

/-- C2 witness: answering `n` at the second prompt aborts with zero
delete calls. -/
theorem c2_witness :
    delete_users_from_file oneUserFile "non_active_users.json"
        "DELETE" "n" srvAll204
      = { calls := [], summary := none } :=
  c2_confirmation_gates oneUserFile "non_active_users.json"
    "DELETE" "n" srvAll204 (by decide)

/-- C6: after a confirmed batch over `n` records the printed summary is
`(successes, failures, n)` with `successes + failures = n`, and the
delete calls issued are exactly the records with a truthy `accountId`,
in order and independent of the outcomes of earlier calls (no
fail-fast). -/
theorem c6_summary_totals (fs : FileSys)
    (filename confirm1 confirm2 : String) (srv : Json → DelResp)
    (users : List JDict)
    (hload : loadUsers fs filename = some users)
    (h1 : pyStrip confirm1 = "DELETE")
    (h2 : pyLower (pyStrip confirm2) = "y") :
    (delete_users_from_file fs filename confirm1 confirm2 srv).summary
      = some ((deletionLoop srv users).1, (deletionLoop srv users).2.1,
              users.length)
    ∧ (deletionLoop srv users).1 + (deletionLoop srv users).2.1
      = users.length
    ∧ (delete_users_from_file fs filename confirm1 confirm2 srv).calls
      = (users.filter (fun u => (dget u "accountId" Json.null).truthy)).map
          (fun u => dget u "accountId" Json.null) := by
  have hrun : delete_users_from_file fs filename confirm1 confirm2 srv
      = { calls := (deletionLoop srv users).2.2,
          summary := some ((deletionLoop srv users).1,
            (deletionLoop srv users).2.1, users.length) } := by
    unfold delete_users_from_file
    rw [hload]
    simp [h1, h2]
  refine ⟨by rw [hrun], deletionLoop_counts srv users, ?_⟩
  rw [hrun]
  exact deletionLoop_calls srv users

/-- A saved file with two deletable user records. -/
def twoUserFile : FileSys :=
  [("non_active_users.json", Json.arr
    [Json.obj [("accountId", Json.str "acc-a")],
     Json.obj [("accountId", Json.str "acc-b")]])]

/-- A delete endpoint answering 204 for `acc-a` and 400 otherwise. -/
def srv204400 : Json → DelResp := fun accountId =>
  if accountId.eqStr "acc-a" then DelResp.resp 204 else DelResp.resp 400

/-- C6 witness: delete calls answering [204, 400] over two records give
the summary 1 success, 1 failure, 2 total, and both calls are issued. -/
theorem c6_witness :
    (delete_users_from_file twoUserFile "non_active_users.json"
        "DELETE" "y" srv204400).summary = some (1, 1, 2)
    ∧ (delete_users_from_file twoUserFile "non_active_users.json"
        "DELETE" "y" srv204400).calls
      = [Json.str "acc-a", Json.str "acc-b"] := by
  have h := c6_summary_totals twoUserFile "non_active_users.json"
      "DELETE" "y" srv204400
      [[("accountId", Json.str "acc-a")], [("accountId", Json.str "acc-b")]]
      rfl rfl rfl
  constructor
  · rw [h.1]
    rfl
  · rw [h.2.2]
    rfl

/-- A saved file whose first record has no `accountId` key. -/
def noIdFile : FileSys :=
  [("non_active_users.json", Json.arr
    [Json.obj [("displayName", Json.str "No Id")],
     Json.obj [("accountId", Json.str "acc-a")]])]

/-- C8: in a confirmed batch, a record without an `accountId` key gets
no delete call, is counted as one failure, and the remaining records
are processed exactly as they would be on their own. -/
theorem c8_missing_account_id (fs : FileSys)
    (filename confirm1 confirm2 : String) (srv : Json → DelResp)
    (u : JDict) (rest : List JDict)
    (hload : loadUsers fs filename = some (u :: rest))
    (h1 : pyStrip confirm1 = "DELETE")
    (h2 : pyLower (pyStrip confirm2) = "y")
    (hu : hasKey u "accountId" = false) :
    (delete_users_from_file fs filename confirm1 confirm2 srv).calls
      = (deletionLoop srv rest).2.2
    ∧ (delete_users_from_file fs filename confirm1 confirm2 srv).summary
      = some ((deletionLoop srv rest).1,
              (deletionLoop srv rest).2.1 + 1, rest.length + 1) := by
  have htr : (dget u "accountId" Json.null).truthy = false := by
    rw [dget_of_not_hasKey u "accountId" Json.null hu]
    rfl
  have hrun : delete_users_from_file fs filename confirm1 confirm2 srv
      = { calls := (deletionLoop srv (u :: rest)).2.2,
          summary := some ((deletionLoop srv (u :: rest)).1,
            (deletionLoop srv (u :: rest)).2.1, (u :: rest).length) } := by
    unfold delete_users_from_file
    rw [hload]
    simp [h1, h2]
  rw [hrun, deletionLoop_skip srv u rest htr]
  exact ⟨rfl, rfl⟩

/-- C8 witness: the id-less first record is skipped and counted as the
one failure; the second record is still attempted and succeeds. -/
theorem c8_witness :
    (delete_users_from_file noIdFile "non_active_users.json"
        "DELETE" "y" srvAll204).calls = [Json.str "acc-a"]
    ∧ (delete_users_from_file noIdFile "non_active_users.json"
        "DELETE" "y" srvAll204).summary = some (1, 1, 2) := by
  have h := c8_missing_account_id noIdFile "non_active_users.json"
      "DELETE" "y" srvAll204
      [("displayName", Json.str "No Id")] [[("accountId", Json.str "acc-a")]]
      rfl rfl rfl rfl
  constructor
  · rw [h.1]
    rfl
  · rw [h.2]
    rfl

/-- C3: page requests start at `startAt = 0` and advance by 50 per
request; after every page holding exactly 50 records a further request
is issued, and the first page with fewer than 50 records (the empty
page included) is the last request, whatever responses would follow. -/
theorem c3_pagination (full : List (List JDict)) (last : List JDict)
    (rest : List PageResp)
    (hfull : ∀ p ∈ full, p.length = maxResults)
    (hlast : last.length < maxResults) :
    fetchRequests (full.map (PageResp.ok 200)
        ++ PageResp.ok 200 last :: rest)
      = (List.range (full.length + 1)).map (fun i => maxResults * i)
    ∧ fetchWantsMore (full.map (PageResp.ok 200)
        ++ PageResp.ok 200 last :: rest) = false := by
  unfold fetchRequests fetchWantsMore
  rw [fetchLoop_fullPages full 0 (PageResp.ok 200 last :: rest) hfull,
    fetchLoop_shortPage _ last rest hlast]
  simp [List.range_succ]

/-- C3 witness: one page of exactly 50 records then an empty page give
requests at `startAt` 0 and 50 and stop, ignoring any later
responses. -/
theorem c3_witness :
    fetchRequests ([List.replicate 50 ([] : JDict)].map (PageResp.ok 200)
        ++ PageResp.ok 200 [] :: [PageResp.netErr]) = [0, 50]
    ∧ fetchWantsMore ([List.replicate 50 ([] : JDict)].map (PageResp.ok 200)
        ++ PageResp.ok 200 [] :: [PageResp.netErr]) = false := by
  have h := c3_pagination [List.replicate 50 ([] : JDict)] []
      [PageResp.netErr] (by decide) (by decide)
  refine ⟨?_, h.2⟩
  rw [h.1]
  rfl

/-- C5: when a page request comes back non-200 or raises a transport
error, the fetch stops paging and returns exactly what the earlier
(full) pages accumulated - a plain partial list, no failure signalled
(the function is total and never returns an error value). -/
theorem c5_partial_on_error (full : List (List JDict)) (bad : PageResp)
    (rest : List PageResp)
    (hfull : ∀ p ∈ full, p.length = maxResults)
    (hbad : bad = PageResp.netErr
        ∨ ∃ status users, status ≠ 200 ∧ bad = PageResp.ok status users) :
    fetch_non_active_users (full.map (PageResp.ok 200) ++ bad :: rest)
      = (full.map (fun p => (p.filter isInactive).map projectUser)).flatten
    ∧ fetchWantsMore (full.map (PageResp.ok 200) ++ bad :: rest)
      = false := by
  unfold fetch_non_active_users fetchWantsMore
  rw [fetchLoop_fullPages full 0 (bad :: rest) hfull]
  have hstop : fetchLoop (0 + maxResults * full.length) (bad :: rest)
      = ([], [0 + maxResults * full.length], false) := by
    rcases hbad with h | ⟨status, users, hs, h⟩
    · rw [h]
      exact fetchLoop_netErr _ _
    · rw [h]
      exact fetchLoop_badStatus _ _ _ _ hs
  rw [hstop]
  simp

/-- C5 witness: a full page holding one inactive user followed by an
HTTP 500 response returns just the record of that user. -/
theorem c5_witness :
    fetch_non_active_users
        ([inactiveAtlassianUser :: List.replicate 49 ([] : JDict)].map
            (PageResp.ok 200)
          ++ PageResp.ok 500 [] :: [])
      = [projectUser inactiveAtlassianUser] := by
  have h := c5_partial_on_error
      [inactiveAtlassianUser :: List.replicate 49 ([] : JDict)]
      (PageResp.ok 500 []) [] (by decide)
      (Or.inr ⟨500, [], by decide, rfl⟩)
  rw [h.1]
  rfl

/-- A pre-existing saved file holding a stale record. -/
def staleFile : FileSys :=
  [("non_active_users.json", Json.arr
    [Json.obj [("accountId", Json.str "stale")]])]

/-- C9 counterexample: when the fetch accumulates nothing (the first
page is already empty), menu option 1 removes the pre-existing
`non_active_users.json` and writes nothing, so afterwards the file does
not exist - it does not hold the (empty) accumulated list, contrary to
the claim that the file afterwards contains exactly the accumulated
list of that fetch. -/
theorem c9_counterexample :
    fetch_non_active_users [PageResp.ok 200 []] = []
    ∧ loadUsers (menuFetchOption staleFile [PageResp.ok 200 []])
        defaultFilename
      ≠ some (fetch_non_active_users [PageResp.ok 200 []])
    ∧ readFile (menuFetchOption staleFile [PageResp.ok 200 []])
        defaultFilename = none := by
  refine ⟨rfl, ?_, rfl⟩
  have hnone : loadUsers (menuFetchOption staleFile [PageResp.ok 200 []])
      defaultFilename = none := rfl
  rw [hnone]
  simp

/-- C9 (amended): menu option 1 first removes any pre-existing
`non_active_users.json`; when the fetch accumulates a nonempty list the
file afterwards holds exactly that list, and when it accumulates
nothing, nothing is written and the file is absent. -/
theorem c9_fetch_option (fs : FileSys) (resps : List PageResp) :
    (fetch_non_active_users resps ≠ [] →
      loadUsers (menuFetchOption fs resps) defaultFilename
        = some (fetch_non_active_users resps))
    ∧ (fetch_non_active_users resps = [] →
      readFile (menuFetchOption fs resps) defaultFilename = none) := by
  constructor
  · intro hne
    have hemp : (fetch_non_active_users resps).isEmpty = false := by
      cases hl : fetch_non_active_users resps with
      | nil => exact absurd hl hne
      | cons a l => rfl
    simp only [menuFetchOption, hemp, Bool.false_eq_true, if_false]
    exact loadUsers_save (removeFile fs defaultFilename)
      (fetch_non_active_users resps) defaultFilename
  · intro hempty
    have hemp : (fetch_non_active_users resps).isEmpty = true := by
      rw [hempty]
      rfl
    simp only [menuFetchOption, hemp, if_true]
    exact readFile_removeFile fs defaultFilename

/-- C9 witness: with a stale pre-existing file and a fetch that finds
one inactive user, the file afterwards holds exactly that one record. -/
theorem c9_witness :
    loadUsers (menuFetchOption staleFile
        [PageResp.ok 200 [inactiveAtlassianUser]]) defaultFilename
      = some [projectUser inactiveAtlassianUser] := by
  have hval : fetch_non_active_users [PageResp.ok 200 [inactiveAtlassianUser]]
      = [projectUser inactiveAtlassianUser] := rfl
  have h := (c9_fetch_option staleFile
      [PageResp.ok 200 [inactiveAtlassianUser]]).1 (by rw [hval]; simp)
  rw [h, hval]
